import Mathlib

/- A verification development for the llm-news services: shallow embeddings of
src/services/llm_service.py and src/services/rag_service.py, with theorems about
content truncation, the classification retry pipeline, URL validation, archive
indexing, retrieval filtering, and the token stream handler.

External collaborators (the OpenAI model boundary, tiktoken, the fetcher, the
langchain splitter, json repair) are modelled abstractly: model calls become
oracle values, the tokenizer becomes an abstract token-count function, and
fallible library calls become Except values, mirroring the try/except structure
of the source. -/

namespace NewsSpec

/- ===== Content Truncator (llm_service.truncate_to_fit) =====
The source loop is
    while True:
        total = len(enc(system_prompt)) + len(enc("Article Content:\n" + content))
        if total <= MAX_INPUT_TOKENS: return content
        content = content[: int(len(content) * 0.9)]
Content strings are modelled as List Char (Python len and slicing count
characters); the tokenizer enc is an abstract function, and the budget is a
parameter standing for MAX_INPUT_TOKENS.  The unbounded while-loop is embedded
with fuel; the fuel content.length + 1 is shown sufficient whenever the
empty-content estimate fits the budget. -/

def articleHeaderChars : List Char := "Article Content:\n".toList

/- content[: int(len(content) * 0.9)] -/
def truncateShrink (c : List Char) : List Char := c.take (c.length * 9 / 10)

def truncateAux (enc : List Char → Nat) (sp : List Char) (budget : Nat) :
    Nat → List Char → Option (List Char)
  | 0, _ => none
  | fuel + 1, c =>
    if enc sp + enc (articleHeaderChars ++ c) ≤ budget then some c
    else truncateAux enc sp budget fuel (truncateShrink c)

def truncate_to_fit (enc : List Char → Nat) (sp : List Char) (budget : Nat)
    (c : List Char) : Option (List Char) :=
  truncateAux enc sp budget (c.length + 1) c

/- The while-loop of the source terminates on input c exactly when some fuel
suffices for the fueled embedding. -/
def truncateTerminates (enc : List Char → Nat) (sp : List Char) (budget : Nat)
    (c : List Char) : Prop :=
  ∃ fuel, (truncateAux enc sp budget fuel c).isSome = true

/- ===== URL Plausibility Checker (llm_service.validate_article_url) =====
The body is a single try/except: inside the try the model is invoked and its
text is run through extract_json_block, repair_json and json.loads, producing a
Python dict; the whole try-block outcome is modelled as an Except value whose
ok payload is the parsed JSON object (an association list).  The source returns
    parsed.get("is_article", False), parsed.get("reason", "No reason provided")
on success and
    True, f"Validation failed, defaulting to accept: {str(e)}"
on any exception. -/

inductive JsonValue
  | jbool (b : Bool)
  | jstr (s : String)
  | jnum (n : Int)
  | jnull
deriving DecidableEq

def lookupJson : List (String × JsonValue) → String → Option JsonValue
  | [], _ => none
  | (k, v) :: rest, key => if k = key then some v else lookupJson rest key

/- dict.get(key, default) -/
def getJson (d : List (String × JsonValue)) (key : String) (dflt : JsonValue) :
    JsonValue :=
  match lookupJson d key with
  | some v => v
  | none => dflt

def failPrefix : String := "Validation failed, defaulting to accept: "

def isArticleKey : String := "is_article"

def reasonKey : String := "reason"

def noReasonMsg : String := "No reason provided"

def validate_article_url (outcome : Except String (List (String × JsonValue))) :
    JsonValue × JsonValue :=
  match outcome with
  | Except.error e => (JsonValue.jbool true, JsonValue.jstr (failPrefix ++ e))
  | Except.ok d =>
    (getJson d isArticleKey (JsonValue.jbool false),
     getJson d reasonKey (JsonValue.jstr noReasonMsg))

/- A parsed object that has a reason key but no is_article key. -/
def reasonOnlyObj : List (String × JsonValue) :=
  [(reasonKey, JsonValue.jstr "custom reason")]

/- ===== Classification Pipeline (llm_service.process_article) =====
The pydantic models of the source, field for field.  Note that
LoggingOutput.status is a plain string: schema validation checks types only. -/

structure LoggingOutput where
  status : String
  reason : String
  retry : Bool
  missing_categories : List String
deriving DecidableEq

structure ResponseOutput where
  categories : List String
  insights : List String
  summary : String
deriving DecidableEq

structure ReportOutput where
  response : ResponseOutput
  logging : LoggingOutput
deriving DecidableEq

structure ReportMetadata where
  source : String
  title : String
  raw_content : String
  missing_categories : List String
deriving DecidableEq

structure Report where
  logging : LoggingOutput
  response : ResponseOutput
  metadata : ReportMetadata
deriving DecidableEq

structure Article where
  url : String
  title : String
  content : String
  retries_left : Nat
deriving DecidableEq

/- One iteration of the while-loop interacts with the outside world twice:
the model call (llm.ainvoke followed by extract_json_block, repair_json,
json.loads and ReportOutput.model_validate) and, when an escalation is
triggered, the fetch_article_content call.  Each is an Except value: error
carries the stringified exception, ok carries the parsed ReportOutput
respectively the fetched content (the empty string is falsy in the source).
The truncated safe_content is passed only to the model, which the oracle
abstracts; full_content itself is never truncated. -/

structure Attempt where
  model : Except String ReportOutput
  fetch : Except String String

/- The successful return value: logging and response are the parsed model
output verbatim, metadata is assembled from the article and full_content. -/
def finalizeReport (a : Article) (r : ReportOutput) (full_content : String) :
    Report :=
  { logging := r.logging
    response := r.response
    metadata :=
      { source := a.url
        title := a.title
        raw_content := full_content
        missing_categories := r.logging.missing_categories } }

/- The except-branch return value. -/
def errorReport (a : Article) (msg : String) (full_content : String) : Report :=
  { logging :=
      { status := "Error", reason := msg, retry := false, missing_categories := [] }
    response := { categories := [], insights := [], summary := "" }
    metadata :=
      { source := a.url
        title := a.title
        raw_content := full_content
        missing_categories := [] } }

/- The while-loop, by recursion on retries_left (the only path that loops
decrements it).  The result also carries the number of model invocations and
the number of escalation fetch calls.  In the zero-retries case the source
logs a warning when the model requested a retry and finalizes either way;
the if-branches are kept to mirror that shape. -/
def processArticle (a : Article) (oracle : Nat → Attempt) :
    Nat → Nat → String → Report × Nat × Nat
  | 0, i, full_content =>
    match (oracle i).model with
    | Except.error m => (errorReport a m full_content, 1, 0)
    | Except.ok r =>
      if r.logging.retry then (finalizeReport a r full_content, 1, 0)
      else (finalizeReport a r full_content, 1, 0)
  | k + 1, i, full_content =>
    match (oracle i).model with
    | Except.error m => (errorReport a m full_content, 1, 0)
    | Except.ok r =>
      if r.logging.retry then
        match (oracle i).fetch with
        | Except.error m => (errorReport a m full_content, 1, 1)
        | Except.ok new_content =>
          if new_content = "" then (finalizeReport a r full_content, 1, 1)
          else
            let rest := processArticle a oracle k (i + 1) new_content
            (rest.1, rest.2.1 + 1, rest.2.2 + 1)
      else (finalizeReport a r full_content, 1, 0)

def process_article (a : Article) (oracle : Nat → Attempt) : Report × Nat × Nat :=
  processArticle a oracle a.retries_left 0 a.content

/-- Modelled from the spec: the Category Index is loaded at startup from
categories.json, a repository file that is not under src.  The spec fixes only
that it is an immutable ordered set of permitted category labels, so a
representative concrete list stands in for its contents here; the pipeline
itself uses the list only to compose the system prompt. -/
def CATEGORIES_INDEX : List String := ["AI", "Hardware", "Security"]

/- Concrete inputs used to evaluate the pipeline. -/

def sampleArticle : Article := { url := "u", title := "t", content := "c", retries_left := 1 }

/- A schema-valid model output whose status is outside the documented enum and
whose response fields are not empty. -/
def pendingReport : ReportOutput :=
  { response := { categories := ["AI"], insights := [], summary := "" }
    logging := { status := "Pending", reason := "", retry := false, missing_categories := [] } }

def pendingOracle : Nat → Attempt :=
  fun _ => { model := Except.ok pendingReport, fetch := Except.ok "" }

/- A schema-valid model output proposing a category outside the Category Index
without listing it under missing_categories. -/
def astroReport : ReportOutput :=
  { response := { categories := ["Astrology"], insights := [], summary := "s" }
    logging := { status := "Accepted", reason := "", retry := false, missing_categories := [] } }

def astroOracle : Nat → Attempt :=
  fun _ => { model := Except.ok astroReport, fetch := Except.ok "" }

/- ===== Chunk Indexer (rag_service) =====
Documents and archive entries.  An archive entry models one record of the
latest JSON report file: the status read from entry["logging"]["status"] and
the title, source, raw_content and content fields of entry["metadata"]
(alt_content models the secondary "content" key). -/

structure RagDocument where
  page_content : String
  title : String
  source : String
deriving DecidableEq

structure ArchiveEntry where
  status : String
  title : String
  source : String
  raw_content : String
  alt_content : String
deriving DecidableEq

/- metadata.get("raw_content", "") or metadata.get("content", "") -/
def entryText (e : ArchiveEntry) : String :=
  if e.raw_content = "" then e.alt_content else e.raw_content

/- The doc-collection loop of index_articles_from_json: skip entries whose
status is Rejected, skip entries with no usable content. -/
def archiveDocs (entries : List ArchiveEntry) : List RagDocument :=
  entries.filterMap fun e =>
    if e.status = "Rejected" then none
    else if entryText e = "" then none
    else some { page_content := entryText e, title := e.title, source := e.source }

def splitDoc (split : String → List String) (d : RagDocument) : List RagDocument :=
  (split d.page_content).map fun t =>
    { page_content := t, title := d.title, source := d.source }

/- rag_service.split_documents, parameterized by the text splitter (an external
langchain component). -/
def split_documents (split : String → List String) (docs : List RagDocument) :
    List RagDocument :=
  docs.flatMap (splitDoc split)

/- rag_service.initialize_vectorstore: the global vectorstore becomes a fresh
empty index.  The vectorstore state is modelled as the list of inserted chunks. -/
def init_vectorstore : List RagDocument := []

/- rag_service.index_articles_from_json: reads the latest archive (none models
the no-previous-report early return) and add_documents the split chunks into
the CURRENT vectorstore state vs.  The function never reinitializes vs. -/
def index_articles_from_json (split : String → List String)
    (archive : Option (List ArchiveEntry)) (vs : List RagDocument) :
    List RagDocument :=
  match archive with
  | none => vs
  | some entries =>
    let docs := archiveDocs entries
    if docs = [] then vs
    else vs ++ split_documents split docs

/- The chunks contributed by one run over a given archive. -/
def reindexChunks (split : String → List String)
    (archive : Option (List ArchiveEntry)) : List RagDocument :=
  match archive with
  | none => []
  | some entries =>
    let docs := archiveDocs entries
    if docs = [] then []
    else split_documents split docs

/-- Modelled from the spec: the RecursiveCharacterTextSplitter used by
split_documents is an external langchain component; the spec describes it as a
fixed-size sliding window of 500 units with 100 units of overlap (stride 400).
This concrete splitter is used only to instantiate theorems that are
parameterized by an arbitrary splitter. -/
def slidingChunksAux (window stride : Nat) : Nat → List Char → List (List Char)
  | 0, l => [l]
  | fuel + 1, l =>
    if l.length ≤ window then [l]
    else l.take window :: slidingChunksAux window stride fuel (l.drop stride)

def slidingWindowSplit (s : String) : List String :=
  (slidingChunksAux 500 400 s.toList.length s.toList).map fun l => String.mk l

/- An archive with a single accepted entry carrying content. -/
def archiveOne : Option (List ArchiveEntry) :=
  some [{ status := "Accepted", title := "T", source := "u", raw_content := "hello", alt_content := "" }]

/- ===== Streaming Retrieval Engine (rag_service.stream_query_articles) =====
The retriever (vectorstore.as_retriever) is an abstract function from the
question to the retrieved top-k documents; the streamed model answer is an
abstract token list.  The embedding records every observable of one call:
the retrieved documents, the safety-filtered documents, the deduplicated
source list, the documents the RetrievalQA chain stuffs into the prompt, and
the yielded output stream. -/

/- Sources of entries in the latest archive whose status is Rejected. -/
def rejectedSources (archive : Option (List ArchiveEntry)) : List String :=
  match archive with
  | none => []
  | some entries =>
    entries.filterMap fun e =>
      if e.status = "Rejected" then some e.source else none

/- The unique-sources loop: keep the first (title, source) per nonempty source. -/
def uniqueSourcesAux : List String → List RagDocument → List (String × String)
  | _, [] => []
  | seen, d :: rest =>
    if d.source = "" then uniqueSourcesAux seen rest
    else if seen.contains d.source then uniqueSourcesAux seen rest
    else (d.title, d.source) :: uniqueSourcesAux (d.source :: seen) rest

def uniqueSources (docs : List RagDocument) : List (String × String) :=
  uniqueSourcesAux [] docs

def sourcesHeader : String := "\n\n---\n**Sources:**\n"

def sourceLine (p : String × String) : String :=
  "- [" ++ p.1 ++ "](" ++ p.2 ++ ")\n"

def sourcesFooter (srcs : List (String × String)) : List String :=
  if srcs = [] then [] else sourcesHeader :: srcs.map sourceLine

structure QueryRun where
  retrieved : List RagDocument
  filtered : List RagDocument
  unique_sources : List (String × String)
  contextDocs : List RagDocument
  output : List String

def stream_query_articles (retrieve : String → List RagDocument)
    (archive : Option (List ArchiveEntry)) (answerTokens : List String)
    (question : String) : QueryRun :=
  let retrieved := retrieve question
  let rej := rejectedSources archive
  let filtered := retrieved.filter fun d => !(rej.contains d.source)
  let uniq := uniqueSources filtered
  { retrieved := retrieved
    filtered := filtered
    unique_sources := uniq
    -- The RetrievalQA chain is constructed from the raw retriever
    -- (RetrievalQA.from_chain_type(llm=streaming_llm, retriever=retriever, ...))
    -- and re-runs it on {"query": question}, so the documents embedded in the
    -- prompt are the retriever output, not the filtered list.
    contextDocs := retrieve question
    output := answerTokens ++ sourcesFooter uniq }

/- Concrete inputs: a retriever returning one chunk of a rejected source and
one chunk of an accepted source, over a matching archive. -/

def docRej : RagDocument := { page_content := "bad chunk", title := "Bad", source := "u1" }

def docOk : RagDocument := { page_content := "good chunk", title := "Good", source := "u2" }

def archiveRej : Option (List ArchiveEntry) :=
  some
    [{ status := "Rejected", title := "Bad", source := "u1", raw_content := "bad raw", alt_content := "" },
     { status := "Accepted", title := "Good", source := "u2", raw_content := "good raw", alt_content := "" }]

def retrieveRej : String → List RagDocument := fun _ => [docRej, docOk]

def runRej : QueryRun := stream_query_articles retrieveRej archiveRej ["ans"] "q"

/- ===== Token Stream Handler (rag_service.TokenStreamHandler) =====
A single-producer single-consumer transition system.  The producer follows a
script of events: on_llm_new_token puts a token at the tail of the FIFO queue,
on_llm_end sets the done flag.  The consumer generator pops the head of the
queue and appends it to the yielded output; the loop may terminate exactly
when the while-condition fails, that is when the done flag is set and the
queue is empty (a get timeout merely re-enters the loop and does not change
state, so it is not a transition). -/

inductive PEvent
  | tok (t : String)
  | finish

structure HState where
  pending : List PEvent
  q : List String
  flag : Bool
  out : List String
  finished : Bool

def initState (script : List PEvent) : HState :=
  { pending := script, q := [], flag := false, out := [], finished := false }

/- The tokens carried by a producer script, in production order. -/
def toks (l : List PEvent) : List String :=
  l.filterMap fun e =>
    match e with
    | PEvent.tok t => some t
    | PEvent.finish => none

inductive HStep : HState → HState → Prop
  | put (t : String) (r : List PEvent) (q : List String) (f : Bool) (o : List String) :
      HStep ⟨PEvent.tok t :: r, q, f, o, false⟩ ⟨r, q ++ [t], f, o, false⟩
  | setFlag (r : List PEvent) (q : List String) (f : Bool) (o : List String) :
      HStep ⟨PEvent.finish :: r, q, f, o, false⟩ ⟨r, q, true, o, false⟩
  | consume (p : List PEvent) (t : String) (q : List String) (f : Bool) (o : List String) :
      HStep ⟨p, t :: q, f, o, false⟩ ⟨p, q, f, o ++ [t], false⟩
  | stop (p : List PEvent) (o : List String) :
      HStep ⟨p, [], true, o, false⟩ ⟨p, [], true, o, true⟩

inductive Reach (script : List PEvent) : HState → Prop
  | refl : Reach script (initState script)
  | tail {s s2 : HState} (h : Reach script s) (st : HStep s s2) : Reach script s2

def scriptAB : List PEvent := [PEvent.tok "a", PEvent.tok "b", PEvent.finish]

def finalAB : HState :=
  { pending := [], q := [], flag := true, out := ["a", "b"], finished := true }

/- ===================================================================== -/
/- Theorems -/
/- ===================================================================== -/

/- ----- Content Truncator ----- -/

theorem truncateShrink_length_lt (c : List Char) (hc : c ≠ []) :
    (truncateShrink c).length < c.length := by
  have hlen : 0 < c.length := List.length_pos.mpr hc
  have hdiv : c.length * 9 / 10 < c.length := by
    rw [Nat.div_lt_iff_lt_mul (by norm_num : (0 : Nat) < 10)]
    omega
  simp only [truncateShrink, List.length_take]
  omega

theorem truncateAux_spec (enc : List Char → Nat) (sp : List Char) (budget : Nat)
    (hbase : enc sp + enc articleHeaderChars ≤ budget) :
    ∀ fuel c, c.length < fuel →
      ∃ r k, truncateAux enc sp budget fuel c = some r ∧
        enc sp + enc (articleHeaderChars ++ r) ≤ budget ∧
        r = List.take k c ∧
        (enc sp + enc (articleHeaderChars ++ c) ≤ budget → r = c) := by
  intro fuel
  induction fuel with
  | zero => intro c hc; exact absurd hc (Nat.not_lt_zero _)
  | succ n ih =>
    intro c hc
    by_cases hfit : enc sp + enc (articleHeaderChars ++ c) ≤ budget
    · refine ⟨c, c.length, ?_, hfit, (List.take_length c).symm, fun _ => rfl⟩
      simp [truncateAux, hfit]
    · have hne : c ≠ [] := by
        intro h0
        apply hfit
        rw [h0, List.append_nil]
        exact hbase
      have hlt : (truncateShrink c).length < n := by
        have h1 := truncateShrink_length_lt c hne
        omega
      obtain ⟨r, k, h1, h2, h3, _⟩ := ih (truncateShrink c) hlt
      refine ⟨r, min k (c.length * 9 / 10), ?_, h2, ?_, fun hfc => absurd hfc hfit⟩
      · simp [truncateAux, hfit, h1]
      · rw [h3]
        simp [truncateShrink, List.take_take]

/-- Claim C5 (amended): whenever the token estimate of the fixed prompt plus
the Article Content header with empty content is at most the budget (as is the
case for the actual 195000-token budget of the source), truncate_to_fit
terminates within content.length + 1 shrink iterations and returns a prefix of
the content whose combined estimate fits the budget; content that already fits
is returned unchanged. -/
theorem truncate_terminates_when_base_fits (enc : List Char → Nat)
    (sp : List Char) (budget : Nat) (c : List Char)
    (hbase : enc sp + enc articleHeaderChars ≤ budget) :
    ∃ r k, truncate_to_fit enc sp budget c = some r ∧
      enc sp + enc (articleHeaderChars ++ r) ≤ budget ∧
      r = List.take k c ∧
      (enc sp + enc (articleHeaderChars ++ c) ≤ budget → r = c) :=
  truncateAux_spec enc sp budget hbase (c.length + 1) c (Nat.lt_succ_self _)

/-- Witness for claim C5: with the character-count estimator, an empty system
prompt, budget 100 and content "hi", the hypothesis holds and truncation
returns a fitting prefix. -/
theorem truncate_terminates_witness :
    List.length ([] : List Char) + List.length articleHeaderChars ≤ 100 ∧
    (∃ r k, truncate_to_fit List.length [] 100 ("hi".toList) = some r ∧
      List.length ([] : List Char) + List.length (articleHeaderChars ++ r) ≤ 100 ∧
      r = List.take k ("hi".toList) ∧
      (List.length ([] : List Char) + List.length (articleHeaderChars ++ "hi".toList) ≤ 100 →
        r = "hi".toList)) :=
  ⟨by decide,
   truncate_terminates_when_base_fits List.length [] 100 ("hi".toList) (by decide)⟩

theorem truncateAux_tiny_budget_none :
    ∀ fuel c, truncateAux List.length [] 1 fuel c = none := by
  intro fuel
  induction fuel with
  | zero => intro c; rfl
  | succ n ih =>
    intro c
    have h17 : List.length articleHeaderChars = 17 := by decide
    have hgt : ¬ (List.length ([] : List Char) + List.length (articleHeaderChars ++ c) ≤ 1) := by
      intro hle
      rw [List.length_append, h17] at hle
      simp at hle
      omega
    simp only [truncateAux]
    rw [if_neg hgt]
    exact ih (truncateShrink c)

/-- Counterexample to claim C5 as stated: the budget 1 is positive, yet with
the character-count estimator and an empty system prompt the shrink loop never
reaches a state whose estimate fits, because the Article Content header alone
estimates above the budget; no amount of fuel makes truncation of "hi"
terminate. -/
theorem truncate_diverges_counterexample :
    ¬ truncateTerminates List.length [] 1 ("hi".toList) := by
  intro h
  obtain ⟨fuel, hf⟩ := h
  rw [truncateAux_tiny_budget_none fuel] at hf
  simp at hf

/- ----- URL Plausibility Checker ----- -/

/-- Claim C8 (amended): validate_article_url is fail-open — on every exception
during the model call or response parsing it returns is_article = true rather
than raising or rejecting, with the reason string
"Validation failed, defaulting to accept: " followed by the stringified cause
(not the literal "defaulted to accept: " of the claim). -/
theorem url_check_fail_open (e : String) :
    validate_article_url (Except.error e) =
      (JsonValue.jbool true, JsonValue.jstr (failPrefix ++ e)) := rfl

/-- Counterexample to claim C8 as stated: for the cause "boom" the first
component is true as claimed, but the returned reason is
"Validation failed, defaulting to accept: boom", not
"defaulted to accept: boom". -/
theorem url_check_message_counterexample :
    (validate_article_url (Except.error "boom")).1 = JsonValue.jbool true ∧
    (validate_article_url (Except.error "boom")).2 ≠
      JsonValue.jstr ("defaulted to accept: " ++ "boom") := by
  constructor
  · rfl
  · intro h
    simp [validate_article_url, failPrefix] at h

/-- Claim C10 (amended): when the model response parses to a JSON object with
no is_article key, validate_article_url returns false for the first component
(reject by default, so fail-open applies only to exceptions); the second
component is "No reason provided" when the reason key is also missing —
otherwise it is the value stored under the reason key. -/
theorem missing_key_rejects (d : List (String × JsonValue))
    (h : lookupJson d isArticleKey = none) :
    (validate_article_url (Except.ok d)).1 = JsonValue.jbool false ∧
    (lookupJson d reasonKey = none →
      (validate_article_url (Except.ok d)).2 = JsonValue.jstr noReasonMsg) := by
  constructor
  · simp [validate_article_url, getJson, h]
  · intro h2
    simp [validate_article_url, getJson, h2]

/-- Witness for claim C10: the empty JSON object lacks both keys and is
rejected with the default reason. -/
theorem missing_key_rejects_witness :
    lookupJson [] isArticleKey = none ∧
    ((validate_article_url (Except.ok [])).1 = JsonValue.jbool false ∧
     (lookupJson [] reasonKey = none →
       (validate_article_url (Except.ok [])).2 = JsonValue.jstr noReasonMsg)) :=
  ⟨rfl, missing_key_rejects [] rfl⟩

/-- Counterexample to claim C10 as stated: a parsed object lacking is_article
but carrying a reason key yields (false, that reason), not
(false, "No reason provided"). -/
theorem missing_key_reason_counterexample :
    lookupJson reasonOnlyObj isArticleKey = none ∧
    validate_article_url (Except.ok reasonOnlyObj) ≠
      (JsonValue.jbool false, JsonValue.jstr noReasonMsg) ∧
    validate_article_url (Except.ok reasonOnlyObj) =
      (JsonValue.jbool false, JsonValue.jstr "custom reason") := by decide

/- ----- Classification Pipeline ----- -/

theorem processArticle_cases (a : Article) (oracle : Nat → Attempt) :
    ∀ retries i full_content,
      (∃ m c2, (processArticle a oracle retries i full_content).1 = errorReport a m c2) ∨
      (∃ r c2, (processArticle a oracle retries i full_content).1 = finalizeReport a r c2) := by
  intro retries
  induction retries with
  | zero =>
    intro i fc
    rcases hm : (oracle i).model with m | r
    · exact Or.inl ⟨m, fc, by simp [processArticle, hm]⟩
    · exact Or.inr ⟨r, fc, by simp [processArticle, hm]⟩
  | succ k ih =>
    intro i fc
    rcases hm : (oracle i).model with m | r
    · exact Or.inl ⟨m, fc, by simp [processArticle, hm]⟩
    · cases hr : r.logging.retry with
      | false => exact Or.inr ⟨r, fc, by simp [processArticle, hm, hr]⟩
      | true =>
        rcases hf : (oracle i).fetch with m2 | nc
        · exact Or.inl ⟨m2, fc, by simp [processArticle, hm, hr, hf]⟩
        · by_cases hnc : nc = ""
          · exact Or.inr ⟨r, fc, by simp [processArticle, hm, hr, hf, hnc]⟩
          · have heq : (processArticle a oracle (k + 1) i fc).1 =
                (processArticle a oracle k (i + 1) nc).1 := by
              simp [processArticle, hm, hr, hf, hnc]
            rw [heq]
            exact ih (i + 1) nc

theorem processArticle_counts (a : Article) (oracle : Nat → Attempt) :
    ∀ retries i full_content,
      (processArticle a oracle retries i full_content).2.1 ≤ retries + 1 ∧
      (processArticle a oracle retries i full_content).2.2 ≤ retries := by
  intro retries
  induction retries with
  | zero =>
    intro i fc
    rcases hm : (oracle i).model with m | r <;> simp [processArticle, hm]
  | succ k ih =>
    intro i fc
    rcases hm : (oracle i).model with m | r
    · simp [processArticle, hm]
    · cases hr : r.logging.retry with
      | false => simp [processArticle, hm, hr]
      | true =>
        rcases hf : (oracle i).fetch with m2 | nc
        · simp [processArticle, hm, hr, hf]
        · by_cases hnc : nc = ""
          · simp [processArticle, hm, hr, hf, hnc]
          · obtain ⟨h1, h2⟩ := ih (i + 1) nc
            have heq : processArticle a oracle (k + 1) i fc =
                ((processArticle a oracle k (i + 1) nc).1,
                 (processArticle a oracle k (i + 1) nc).2.1 + 1,
                 (processArticle a oracle k (i + 1) nc).2.2 + 1) := by
              simp [processArticle, hm, hr, hf, hnc]
            rw [heq]
            exact ⟨Nat.succ_le_succ h1, Nat.succ_le_succ h2⟩

/-- Claim C6: process_article invokes the classification model at most
retries_left + 1 times before returning, and attempts the escalation fetch at
most retries_left times (once per unit of retries_left); the second and third
components of process_article count the model invocations and the escalation
fetch calls of the run. -/
theorem model_calls_bound (a : Article) (oracle : Nat → Attempt) :
    (process_article a oracle).2.1 ≤ a.retries_left + 1 ∧
    (process_article a oracle).2.2 ≤ a.retries_left :=
  processArticle_counts a oracle a.retries_left 0 a.content

/-- Claim C7: process_article never raises: every run returns either the
finalized parsed model output or the exception-path report, and the
exception-path report has logging.status Error, logging.retry false,
logging.reason equal to the stringified cause, and empty response.categories,
response.insights and response.summary. -/
theorem no_raise_error_report (a : Article) (oracle : Nat → Attempt) :
    (∃ r c2, (process_article a oracle).1 = finalizeReport a r c2) ∨
    (∃ m c2, (process_article a oracle).1 = errorReport a m c2 ∧
      (process_article a oracle).1.logging.status = "Error" ∧
      (process_article a oracle).1.logging.retry = false ∧
      (process_article a oracle).1.logging.reason = m ∧
      (process_article a oracle).1.response.categories = [] ∧
      (process_article a oracle).1.response.insights = [] ∧
      (process_article a oracle).1.response.summary = "") := by
  rcases processArticle_cases a oracle a.retries_left 0 a.content with ⟨m, c2, h⟩ | ⟨r, c2, h⟩
  · right
    have h2 : (process_article a oracle).1 = errorReport a m c2 := h
    refine ⟨m, c2, h2, ?_, ?_, ?_, ?_, ?_, ?_⟩ <;> rw [h2] <;> rfl
  · left
    exact ⟨r, c2, h⟩

/-- Claim C3 (amended): every report returned by process_article is either the
exception-path report — which does satisfy the invariant: its status is Error
and its response fields are empty — or the finalized report, whose logging and
response are the schema-validated model output verbatim.  Schema validation
constrains only field types (status is an unconstrained string), so for parsed
model outputs the enum membership and the emptiness implication hold only if
the model obeys the prompt. -/
theorem report_invariant_cases (a : Article) (oracle : Nat → Attempt) :
    (∃ m c2, (process_article a oracle).1 = errorReport a m c2 ∧
      ((process_article a oracle).1.logging.status = "Accepted" ∨
       (process_article a oracle).1.logging.status = "Rejected" ∨
       (process_article a oracle).1.logging.status = "Error") ∧
      ((process_article a oracle).1.logging.status ≠ "Accepted" →
        (process_article a oracle).1.response.categories = [] ∧
        (process_article a oracle).1.response.insights = [] ∧
        (process_article a oracle).1.response.summary = "")) ∨
    (∃ r c2, (process_article a oracle).1 = finalizeReport a r c2 ∧
      (process_article a oracle).1.logging = r.logging ∧
      (process_article a oracle).1.response = r.response) := by
  rcases processArticle_cases a oracle a.retries_left 0 a.content with ⟨m, c2, h⟩ | ⟨r, c2, h⟩
  · left
    have h2 : (process_article a oracle).1 = errorReport a m c2 := h
    refine ⟨m, c2, h2, ?_, ?_⟩
    · rw [h2]
      right; right; rfl
    · intro _
      rw [h2]
      exact ⟨rfl, rfl, rfl⟩
  · right
    have h2 : (process_article a oracle).1 = finalizeReport a r c2 := h
    refine ⟨r, c2, h2, ?_, ?_⟩ <;> rw [h2] <;> rfl

/-- Counterexample to claim C3 as stated: a schema-valid model output with
status "Pending" and a nonempty category list is returned by process_article
unchanged, so the returned report has a status outside
{Accepted, Rejected, Error} and violates the emptiness implication. -/
theorem report_invariant_counterexample :
    ¬ ((((process_article sampleArticle pendingOracle).1.logging.status = "Accepted" ∨
         (process_article sampleArticle pendingOracle).1.logging.status = "Rejected" ∨
         (process_article sampleArticle pendingOracle).1.logging.status = "Error")) ∧
       ((process_article sampleArticle pendingOracle).1.logging.status ≠ "Accepted" →
         (process_article sampleArticle pendingOracle).1.response.categories = [] ∧
         (process_article sampleArticle pendingOracle).1.response.insights = [] ∧
         (process_article sampleArticle pendingOracle).1.response.summary = "")) := by decide

/-- Claim C4 (amended): response.categories and logging.missing_categories of
the finalized report are the schema-validated model output verbatim — every
pair of string lists is reachable — because the Category Index is used only to
compose the system prompt and process_article performs no membership check. -/
theorem categories_unconstrained (cats missing : List String) (a : Article) :
    ∃ oracle : Nat → Attempt,
      (process_article a oracle).1.response.categories = cats ∧
      (process_article a oracle).1.logging.missing_categories = missing := by
  refine ⟨fun _ =>
    { model := Except.ok
        { response := { categories := cats, insights := [], summary := "" }
          logging := { status := "Accepted", reason := "", retry := false,
                       missing_categories := missing } }
      fetch := Except.ok "" }, ?_, ?_⟩ <;>
  · rcases a with ⟨url, title, content, retries⟩
    cases retries <;> simp [process_article, processArticle, finalizeReport]

/-- Counterexample to claim C4 as stated: a schema-valid model output with the
category "Astrology" — not a member of the Category Index — reaches
response.categories of the returned report and does not appear in
missing_categories. -/
theorem categories_subset_counterexample :
    "Astrology" ∈ (process_article sampleArticle astroOracle).1.response.categories ∧
    "Astrology" ∉ CATEGORIES_INDEX ∧
    "Astrology" ∉ (process_article sampleArticle astroOracle).1.logging.missing_categories ∧
    ¬ (∀ cat ∈ (process_article sampleArticle astroOracle).1.response.categories,
        cat ∈ CATEGORIES_INDEX) := by decide

/- ----- Chunk Indexer ----- -/

theorem index_articles_from_json_append (split : String → List String)
    (archive : Option (List ArchiveEntry)) (vs : List RagDocument) :
    index_articles_from_json split archive vs = vs ++ reindexChunks split archive := by
  cases archive with
  | none => simp [index_articles_from_json, reindexChunks]
  | some entries =>
    by_cases h : archiveDocs entries = [] <;>
      simp [index_articles_from_json, reindexChunks, h]

/-- Claim C1 (amended): index_articles_from_json appends the chunks computed
from the archive to the current vectorstore state and never reinitializes it —
for every splitter, archive and prior state the result is the prior contents
followed by the freshly computed chunks.  Consequently, running it twice in a
row over an unchanged archive starting from a freshly initialized vectorstore
yields the chunk list twice, not once; the chunk count and contents match a
single run only when initialize_vectorstore is called before each run. -/
theorem index_appends_chunks (split : String → List String)
    (archive : Option (List ArchiveEntry)) (vs : List RagDocument) :
    index_articles_from_json split archive vs = vs ++ reindexChunks split archive ∧
    index_articles_from_json split archive
        (index_articles_from_json split archive init_vectorstore) =
      reindexChunks split archive ++ reindexChunks split archive := by
  refine ⟨index_articles_from_json_append split archive vs, ?_⟩
  rw [index_articles_from_json_append, index_articles_from_json_append]
  simp [init_vectorstore]

/-- Counterexample to claim C1 as stated: over an unchanged one-entry archive,
running index_articles_from_json once from a fresh vectorstore yields one
chunk, running it twice in a row yields two — the second run does not insert
into a freshly-initialized index, it appends to the existing one. -/
theorem index_twice_doubles_counterexample :
    (index_articles_from_json slidingWindowSplit archiveOne
        (index_articles_from_json slidingWindowSplit archiveOne init_vectorstore)).length = 2 ∧
    (index_articles_from_json slidingWindowSplit archiveOne init_vectorstore).length = 1 ∧
    index_articles_from_json slidingWindowSplit archiveOne
        (index_articles_from_json slidingWindowSplit archiveOne init_vectorstore) ≠
      index_articles_from_json slidingWindowSplit archiveOne init_vectorstore := by decide

/- ----- Streaming Retrieval Engine ----- -/

/-- Claim C2: the code evaluated at the failing input.  The retriever returns a
chunk whose source u1 has latest archived status Rejected; the safety filter
drops it from the filtered list, but the documents embedded in the completion
prompt are produced by the RetrievalQA chain from the raw retriever, so the
rejected-source chunk is used as model context — contradicting the claim that
the prompt embeds only the filtered chunks. -/
theorem context_includes_rejected_bug :
    docRej ∈ runRej.contextDocs ∧
    docRej.source ∈ rejectedSources archiveRej ∧
    runRej.filtered = [docOk] ∧
    docRej ∉ runRej.filtered := by decide

/- ----- Token Stream Handler ----- -/

theorem reach_tokens (script : List PEvent) (s : HState) (h : Reach script s) :
    s.out ++ s.q ++ toks s.pending = toks script := by
  induction h with
  | refl => simp [initState]
  | tail hr st ih =>
    cases st with
    | put t r q f o =>
      simp [toks, List.append_assoc] at ih ⊢
      exact ih
    | setFlag r q f o =>
      simp [toks, List.append_assoc] at ih ⊢
      exact ih
    | consume p t q f o =>
      simp [toks, List.append_assoc] at ih ⊢
      exact ih
    | stop p o => exact ih

theorem reach_finished (script : List PEvent) (s : HState) (h : Reach script s) :
    s.finished = true → s.flag = true ∧ s.q = [] := by
  induction h with
  | refl => intro hf; simp [initState] at hf
  | tail hr st ih =>
    cases st with
    | put t r q f o => intro hf; simp at hf
    | setFlag r q f o => intro hf; simp at hf
    | consume p t q f o => intro hf; simp at hf
    | stop p o => intro _; exact ⟨rfl, rfl⟩

/-- Claim C9: in every reachable state of the handler transition system the
yielded output followed by the queued tokens and the not-yet-produced tokens
equals the full production-order token sequence — so tokens are yielded
strictly in production order — and a state in which the generator has
terminated has the completion flag set and an empty hand-off queue: the stream
never terminates while unconsumed tokens remain queued. -/
theorem stream_order_and_termination (script : List PEvent) (s : HState)
    (h : Reach script s) :
    s.out ++ s.q ++ toks s.pending = toks script ∧
    (s.finished = true → s.flag = true ∧ s.q = []) :=
  ⟨reach_tokens script s h, reach_finished script s h⟩

/-- Witness for claim C9: the producer script puts "a" and "b" and then
completes; a full interleaved run reaches the terminated state having yielded
exactly ["a", "b"] in order with an empty queue. -/
theorem stream_order_witness :
    finalAB.out ++ finalAB.q ++ toks finalAB.pending = toks scriptAB ∧
    (finalAB.finished = true → finalAB.flag = true ∧ finalAB.q = []) :=
  stream_order_and_termination scriptAB finalAB
    (Reach.tail
      (Reach.tail
        (Reach.tail
          (Reach.tail
            (Reach.tail
              (Reach.tail Reach.refl
                (HStep.put "a" [PEvent.tok "b", PEvent.finish] [] false []))
              (HStep.consume [PEvent.tok "b", PEvent.finish] "a" [] false []))
            (HStep.put "b" [PEvent.finish] [] false ["a"]))
          (HStep.consume [PEvent.finish] "b" [] false ["a"]))
        (HStep.setFlag [] [] false ["a", "b"]))
      (HStep.stop [] ["a", "b"]))

end NewsSpec
